import Mathlib

/-!
A shallow embedding of the `matrix-operations` library: a dense rectangular
matrix of 64-bit floats with a validating builder, accessors (`get`, `find`,
`verify`), a text rendering, and elementwise addition.

The scalar type `f64` is modelled abstractly: every operation that touches
scalar values is parametrised by the scalar type `α` together with the scalar
operations it uses (`zero` for the literal `0.0`, `f` for IEEE addition,
`beq` for IEEE `==`, `shw` for `Display`).  Theorems proved for all
interpretations in particular hold for the IEEE 64-bit interpretation.

Rust panics (out-of-bounds `Vec` indexing, `Option::unwrap` on `None`) are
modelled by an outer `Option`: `none` is a panic, `some r` is normal return
of `r`.
-/

set_option autoImplicit false

namespace MatrixOps

variable {α : Type}

/-- The error taxonomy of `src/errors.rs` (`enum MatrixError`). -/
inductive MatrixError where
  | InvalidMatrixSize
  | DimensionMismatch
  | InvalidOperation
  | DataMismatch
deriving DecidableEq, Repr

/-- Model of `struct Matrix` of `src/matrix.rs`: `rows`, `cols`, row-major `data`. -/
structure Matrix (α : Type) where
  rows : Nat
  cols : Nat
  data : List (List α)
deriving DecidableEq, Repr

/-- Model of `struct BuilderMatrix` of `src/matrix.rs`: three `Option` fields. -/
structure BuilderMatrix (α : Type) where
  rows : Option Nat
  cols : Option Nat
  data : Option (List (List α))
deriving DecidableEq, Repr

instance instDecEqExcept {ε β : Type} [DecidableEq ε] [DecidableEq β] :
    DecidableEq (Except ε β)
  | .error a, .error b =>
    if h : a = b then .isTrue (by rw [h]) else .isFalse (fun he => h (by injection he))
  | .error _, .ok _ => .isFalse (fun he => by injection he)
  | .ok _, .error _ => .isFalse (fun he => by injection he)
  | .ok a, .ok b =>
    if h : a = b then .isTrue (by rw [h]) else .isFalse (fun he => h (by injection he))

/-- The value of the doubly indexed Rust expression `data[i][j]`, as an
`Option`: `none` when either index is out of bounds (where Rust panics). -/
def cellAt (d : List (List α)) (i j : Nat) : Option α :=
  (d[i]?).bind fun row => row[j]?

/-- Model of `Matrix::new`: the placeholder constructor, `rows: 1, cols: 1,
data: Vec::new()`. -/
def Matrix.new : Matrix α :=
  { rows := 1, cols := 1, data := [] }

/-- Model of `Matrix::get(row, col)`.  The outer `Option` is the panic model: the
source checks `row < self.rows && col < self.cols` and then indexes
`self.data[row][col]` without a further guard, so an index that passes the
bounds check but exceeds the actual `data` panics (`none`).  `some none` is
Rust's normal `None` return, `some (some v)` is `Some(v)`. -/
def Matrix.get (m : Matrix α) (row col : Nat) : Option (Option α) :=
  if row < m.rows && col < m.cols then
    match cellAt m.data row col with
    | some v => some (some v)
    | none => none
  else
    some none

/-- Model of `Matrix::verify(is_mult, other)`: for multiplication the check is
`self.rows == other.cols`; for addition it is
`self.rows == other.rows && self.cols == other.cols`. -/
def Matrix.verify (m : Matrix α) (is_mult : Bool) (other : Matrix α) : Bool :=
  match is_mult with
  | true => decide (m.rows = other.cols)
  | false => decide (m.rows = other.rows) && decide (m.cols = other.cols)

/-- The inner loop of `Matrix::find`: scan one row left to right, `j` the
enumeration index of the first cell, returning the index of the first cell
with `v == value`. -/
def findIn (beq : α → α → Bool) (value : α) : Nat → List α → Option Nat
  | _, [] => none
  | j, v :: rest => if beq v value then some j else findIn beq value (j + 1) rest

/-- The outer loop of `Matrix::find`: scan the rows top to bottom, `i` the
enumeration index of the first row, returning the coordinate of the first
matching cell. -/
def findRowsAux (beq : α → α → Bool) (value : α) :
    Nat → List (List α) → Option (Nat × Nat)
  | _, [] => none
  | i, row :: rest =>
    match findIn beq value 0 row with
    | some j => some (i, j)
    | none => findRowsAux beq value (i + 1) rest

/-- Model of `Matrix::find(value)`: first row-major coordinate whose cell satisfies
`v == value`, where `beq` models IEEE `==` on `f64`. -/
def Matrix.find (beq : α → α → Bool) (m : Matrix α) (value : α) :
    Option (Nat × Nat) :=
  findRowsAux beq value 0 m.data

/-- Model of `BuilderMatrix::new`: all three fields start as `Some` (1, 1, empty). -/
def BuilderMatrix.new : BuilderMatrix α :=
  { rows := some 1, cols := some 1, data := some [] }

/-- Model of `Matrix::builder()`. -/
def Matrix.builder : BuilderMatrix α :=
  BuilderMatrix.new

/-- Model of `BuilderMatrix::rows(n)` (named `setRows` here because the field
projection already takes the source name). -/
def BuilderMatrix.setRows (b : BuilderMatrix α) (n : Nat) : BuilderMatrix α :=
  { b with rows := some n }

/-- Model of `BuilderMatrix::cols(n)` (named `setCols` here because the field
projection already takes the source name). -/
def BuilderMatrix.setCols (b : BuilderMatrix α) (n : Nat) : BuilderMatrix α :=
  { b with cols := some n }

/-- Model of `BuilderMatrix::data(d)` (named `setData` here because the field
projection already takes the source name). -/
def BuilderMatrix.setData (b : BuilderMatrix α) (d : List (List α)) :
    BuilderMatrix α :=
  { b with data := some d }

/-- Model of `BuilderMatrix::done`, with `zero` modelling the literal `0.0`.  The
match arms of the source in order: the first guard compares the `Option`
fields to `Some(0)` without unwrapping; every later arm unwraps, so `none`
(panic) is produced exactly where the source would `unwrap` a `None` field.
The third source guard is lazy (`a != b || any(...)`), so `cols` is only
unwrapped when `data.len() == rows` already holds; the nested `if`s below
reproduce that order. -/
def BuilderMatrix.done (zero : α) (b : BuilderMatrix α) :
    Option (Except MatrixError (Matrix α)) :=
  if b.rows = some 0 ∨ b.cols = some 0 then
    some (.error .InvalidMatrixSize)
  else do
    let d ← b.data
    if d.isEmpty then
      let c ← b.cols
      let r ← b.rows
      return .ok { rows := r, cols := c, data := List.replicate r (List.replicate c zero) }
    else
      let r ← b.rows
      if d.length ≠ r then
        return .error .DataMismatch
      else
        let c ← b.cols
        if d.any fun row => row.length ≠ c then
          return .error .DataMismatch
        else
          return .ok { rows := r, cols := c, data := d }

/-- One step of the accumulating phase of the builder: a chained call of
`rows(n)`, `cols(n)` or `data(d)`. -/
inductive BuilderOp (α : Type) where
  | opRows (n : Nat)
  | opCols (n : Nat)
  | opData (d : List (List α))

/-- Apply one chained builder call. -/
def applyOp (b : BuilderMatrix α) : BuilderOp α → BuilderMatrix α
  | .opRows n => b.setRows n
  | .opCols n => b.setCols n
  | .opData d => b.setData d

/-- The builder reached from `Matrix::builder()` by a chain of calls. -/
def build (ops : List (BuilderOp α)) : BuilderMatrix α :=
  ops.foldl applyOp Matrix.builder

/-- The Rust assignment `d[i][j] = v`: `none` when either index would be out
of bounds (where Rust panics), otherwise the updated rows. -/
def setCell (d : List (List α)) (i j : Nat) (v : α) : Option (List (List α)) :=
  match d[i]? with
  | none => none
  | some row => if j < row.length then some (d.set i (row.set j v)) else none

/-- The nested `for` loops of `Add::add`, flattened over an explicit list of
row-major coordinates: at each `(i, j)` read `self.data[i][j]` and
`other.data[i][j]` (panic → `none`) and store their sum into the result. -/
def addCells (f : α → α → α) (a b : List (List α)) :
    List (List α) → List (Nat × Nat) → Option (List (List α))
  | d, [] => some d
  | d, ij :: rest =>
    match cellAt a ij.1 ij.2, cellAt b ij.1 ij.2 with
    | some x, some y =>
      match setCell d ij.1 ij.2 (f x y) with
      | some d2 => addCells f a b d2 rest
      | none => none
    | _, _ => none

/-- The coordinates `(i, j)` for `i in 0..r`, `j in 0..c`, in row-major
order, exactly as the two nested loops of `Add::add` visit them. -/
def rowMajorIdx (r c : Nat) : List (Nat × Nat) :=
  (List.range r).flatMap fun i => (List.range c).map fun j => (i, j)

/-- Model of `<Matrix as Add>::add` of `src/operations/add.rs`, with `f` modelling
IEEE `f64` addition and `zero` the literal `0.0`: verify additive
compatibility, build a zero-filled `rows × cols` shell via the builder
(propagating its error with `?`), then fill it cell by cell. -/
def Matrix.add (f : α → α → α) (zero : α) (m other : Matrix α) :
    Option (Except MatrixError (Matrix α)) :=
  if !(m.verify false other) then
    some (.error .DimensionMismatch)
  else
    match BuilderMatrix.done zero ((Matrix.builder.setRows m.rows).setCols m.cols) with
    | none => none
    | some (.error e) => some (.error e)
    | some (.ok result) =>
      match addCells f m.data other.data result.data (rowMajorIdx m.rows m.cols) with
      | none => none
      | some d => some (.ok { rows := result.rows, cols := result.cols, data := d })

/-- One cell of the `Display` output: the rendered value followed by a
space when `j < self.cols - 1`. -/
def renderCell (shw : α → String) (cols : Nat) (j : Nat) (v : α) : String :=
  shw v ++ if j < cols - 1 then " " else ""

/-- One row of the `Display` output: `|`, the cells, `|`. -/
def renderRow (shw : α → String) (cols : Nat) (row : List α) : String :=
  "|" ++ String.join (row.enum.map fun p => renderCell shw cols p.1 p.2) ++ "|"

/-- Model of `impl Display for Matrix`, with `shw` modelling `f64`'s `Display`: `||`
when `rows == 0 || cols == 0`; otherwise each `data` row rendered between
bars, followed by a newline when `i < self.rows - 1`. -/
def Matrix.render (shw : α → String) (m : Matrix α) : String :=
  if m.rows = 0 ∨ m.cols = 0 then "||"
  else
    String.join (m.data.enum.map fun p =>
      renderRow shw m.cols p.2 ++ if p.1 < m.rows - 1 then "\n" else "")

/-- The shape invariant of the spec (section 3): positive dimensions, outer
length `rows`, every inner row of length `cols`. -/
def Invariant (m : Matrix α) : Prop :=
  0 < m.rows ∧ 0 < m.cols ∧ m.data.length = m.rows ∧
    ∀ row ∈ m.data, row.length = m.cols

instance (m : Matrix α) [DecidableEq α] : Decidable (Invariant m) := by
  unfold Invariant; infer_instance

/-- Rectangular shape: outer length `r`, every row of length `c`. -/
def Shaped (r c : Nat) (d : List (List α)) : Prop :=
  d.length = r ∧ ∀ row ∈ d, row.length = c

/-- All three `Option` fields of a builder are `Some`. -/
def AllSome (b : BuilderMatrix α) : Prop :=
  b.rows.isSome ∧ b.cols.isSome ∧ b.data.isSome

lemma allSome_applyOp (b : BuilderMatrix α) (op : BuilderOp α) (h : AllSome b) :
    AllSome (applyOp b op) := by
  obtain ⟨h1, h2, h3⟩ := h
  cases op <;>
    simp_all [applyOp, BuilderMatrix.setRows, BuilderMatrix.setCols,
      BuilderMatrix.setData, AllSome]

lemma allSome_foldl (ops : List (BuilderOp α)) :
    ∀ b : BuilderMatrix α, AllSome b → AllSome (ops.foldl applyOp b) := by
  induction ops with
  | nil => intro b h; simpa using h
  | cons op rest ih => intro b h; exact ih _ (allSome_applyOp b op h)

lemma allSome_build (ops : List (BuilderOp α)) : AllSome (build ops) :=
  allSome_foldl ops Matrix.builder ⟨rfl, rfl, rfl⟩

lemma done_invalid (zero : α) (b : BuilderMatrix α)
    (h : b.rows = some 0 ∨ b.cols = some 0) :
    b.done zero = some (.error .InvalidMatrixSize) := by
  simp [BuilderMatrix.done, h]

lemma done_empty (zero : α) (b : BuilderMatrix α) (r c : Nat)
    (hr : b.rows = some r) (hc : b.cols = some c) (hd : b.data = some [])
    (hr0 : r ≠ 0) (hc0 : c ≠ 0) :
    b.done zero = some (.ok ⟨r, c, List.replicate r (List.replicate c zero)⟩) := by
  simp [BuilderMatrix.done, hr, hc, hd]
  exact ⟨hr0, hc0⟩

lemma done_mismatch (zero : α) (b : BuilderMatrix α) (r c : Nat)
    (d : List (List α))
    (hr : b.rows = some r) (hc : b.cols = some c) (hd : b.data = some d)
    (hne : d ≠ []) (hr0 : r ≠ 0) (hc0 : c ≠ 0)
    (hmis : d.length ≠ r ∨ ∃ row ∈ d, row.length ≠ c) :
    b.done zero = some (.error .DataMismatch) := by
  by_cases hl : d.length = r
  · obtain ⟨row, hrow, hrowlen⟩ := hmis.resolve_left (by simpa using hl)
    simp [BuilderMatrix.done, hr, hc, hd, hne, hl]
    rw [if_neg (not_or.mpr ⟨hr0, hc0⟩), if_pos ⟨row, hrow, hrowlen⟩]
  · simp [BuilderMatrix.done, hr, hc, hd, hne, hl]
    exact ⟨hr0, hc0⟩

lemma done_ok (zero : α) (b : BuilderMatrix α) (r c : Nat) (d : List (List α))
    (hr : b.rows = some r) (hc : b.cols = some c) (hd : b.data = some d)
    (hne : d ≠ []) (hr0 : r ≠ 0) (hc0 : c ≠ 0)
    (hlen : d.length = r) (hrows : ∀ row ∈ d, row.length = c) :
    b.done zero = some (.ok ⟨r, c, d⟩) := by
  have h2 : ¬∃ x ∈ d, ¬x.length = c := by
    push_neg
    exact hrows
  simp [BuilderMatrix.done, hr, hc, hd, hne, hlen]
  rw [if_neg (not_or.mpr ⟨hr0, hc0⟩), if_neg h2]

lemma done_isSome (zero : α) (b : BuilderMatrix α) (h : AllSome b) :
    ∃ res, b.done zero = some res := by
  obtain ⟨h1, h2, h3⟩ := h
  obtain ⟨r, hr⟩ := Option.isSome_iff_exists.mp h1
  obtain ⟨c, hc⟩ := Option.isSome_iff_exists.mp h2
  obtain ⟨d, hd⟩ := Option.isSome_iff_exists.mp h3
  by_cases h0 : b.rows = some 0 ∨ b.cols = some 0
  · exact ⟨_, done_invalid zero b h0⟩
  · have hr0 : r ≠ 0 := fun he => h0 (Or.inl (he ▸ hr))
    have hc0 : c ≠ 0 := fun he => h0 (Or.inr (he ▸ hc))
    rcases eq_or_ne d [] with rfl | hne
    · exact ⟨_, done_empty zero b r c hr hc hd hr0 hc0⟩
    · by_cases hok : d.length = r ∧ ∀ row ∈ d, row.length = c
      · exact ⟨_, done_ok zero b r c d hr hc hd hne hr0 hc0 hok.1 hok.2⟩
      · refine ⟨_, done_mismatch zero b r c d hr hc hd hne hr0 hc0 ?_⟩
        rcases Decidable.not_and_iff_or_not.mp hok with h' | h'
        · exact Or.inl h'
        · push_neg at h'
          exact Or.inr h'

lemma done_ok_inv (zero : α) (b : BuilderMatrix α) (m : Matrix α)
    (h : b.done zero = some (.ok m)) :
    Invariant m ∧ b.rows = some m.rows ∧ b.cols = some m.cols := by
  by_cases h0 : b.rows = some 0 ∨ b.cols = some 0
  · rw [done_invalid zero b h0] at h
    simp at h
  · rcases hbd : b.data with _ | d
    · simp [BuilderMatrix.done, h0, hbd] at h
    · rcases hbr : b.rows with _ | r
      · rcases eq_or_ne d [] with rfl | hne
        · rcases hbc : b.cols with _ | c <;>
            simp [BuilderMatrix.done, h0, hbd, hbr, hbc] at h
        · simp [BuilderMatrix.done, h0, hbd, hbr, hne] at h
      · rcases hbc : b.cols with _ | c
        · rcases eq_or_ne d [] with rfl | hne
          · simp [BuilderMatrix.done, h0, hbd, hbr, hbc] at h
          · by_cases hl : d.length = r
            · simp [BuilderMatrix.done, h0, hbd, hbr, hbc, hne, hl] at h
            · simp only [BuilderMatrix.done, h0, if_false, hbd, hbr, hbc, hne, hl] at h
              split at h <;> simp_all
        · have hr0 : r ≠ 0 := fun he => h0 (Or.inl (he ▸ hbr))
          have hc0 : c ≠ 0 := fun he => h0 (Or.inr (he ▸ hbc))
          rcases eq_or_ne d [] with rfl | hne
          · rw [done_empty zero b r c hbr hbc hbd hr0 hc0] at h
            obtain rfl : m = ⟨r, c, List.replicate r (List.replicate c zero)⟩ := by
              simpa [eq_comm] using h
            refine ⟨⟨Nat.pos_of_ne_zero hr0, Nat.pos_of_ne_zero hc0, by simp, ?_⟩, rfl, rfl⟩
            intro row hrow
            simp only [List.eq_of_mem_replicate hrow, List.length_replicate]
          · by_cases hok : d.length = r ∧ ∀ row ∈ d, row.length = c
            · rw [done_ok zero b r c d hbr hbc hbd hne hr0 hc0 hok.1 hok.2] at h
              obtain rfl : m = ⟨r, c, d⟩ := by simpa [eq_comm] using h
              exact ⟨⟨Nat.pos_of_ne_zero hr0, Nat.pos_of_ne_zero hc0, hok.1, hok.2⟩, rfl, rfl⟩
            · have hmis : d.length ≠ r ∨ ∃ row ∈ d, row.length ≠ c := by
                rcases Decidable.not_and_iff_or_not.mp hok with h' | h'
                · exact Or.inl h'
                · push_neg at h'
                  exact Or.inr h'
              rw [done_mismatch zero b r c d hbr hbc hbd hne hr0 hc0 hmis] at h
              simp at h

/-- Two row lists with identical shape: same rows present, same lengths. -/
abbrev ShapeEq (d d' : List (List α)) : Prop :=
  ∀ p : Nat, (d'[p]?).map List.length = (d[p]?).map List.length

lemma shapeEq_refl (d : List (List α)) : ShapeEq d d := fun _ => rfl

lemma shapeEq_trans {d d2 d3 : List (List α)}
    (h1 : ShapeEq d d2) (h2 : ShapeEq d2 d3) : ShapeEq d d3 :=
  fun p => (h2 p).trans (h1 p)

/-- The coordinate `(i, j)` is inside the actual stored rows of `d`. -/
def InShape (d : List (List α)) (i j : Nat) : Prop :=
  ∃ row, d[i]? = some row ∧ j < row.length

lemma inShape_of_shapeEq {d d2 : List (List α)} {i j : Nat}
    (hs : ShapeEq d d2) (h : InShape d i j) : InShape d2 i j := by
  obtain ⟨row, hrow, hj⟩ := h
  have hmap := hs i
  rw [hrow] at hmap
  rcases h2 : d2[i]? with _ | row2
  · rw [h2] at hmap
    simp at hmap
  · rw [h2] at hmap
    simp only [Option.map_some'] at hmap
    have hlen : row2.length = row.length := by simpa using hmap
    exact ⟨row2, h2, hlen ▸ hj⟩

lemma shaped_of_shapeEq {r c : Nat} {d d' : List (List α)}
    (hd : Shaped r c d) (h : ShapeEq d d') : Shaped r c d' := by
  have hnone : ∀ n : Nat, d'[n]? = none ↔ d[n]? = none := by
    intro n
    have hmap := h n
    constructor
    · intro he
      rw [he] at hmap
      rcases hx : d[n]? with _ | x
      · rfl
      · rw [hx] at hmap
        simp at hmap
    · intro he
      rw [he] at hmap
      rcases hx : d'[n]? with _ | x
      · rfl
      · rw [hx] at hmap
        simp at hmap
  have hlen : d'.length = d.length := by
    rcases Nat.lt_trichotomy d'.length d.length with hlt | heq | hgt
    · exfalso
      have h1 : d'[d'.length]? = none := List.getElem?_eq_none (Nat.le_refl _)
      have h2 : d[d'.length]? = none := (hnone _).mp h1
      rw [List.getElem?_eq_none_iff] at h2
      omega
    · exact heq
    · exfalso
      have h1 : d'[d.length]? = none := (hnone _).mpr (List.getElem?_eq_none (Nat.le_refl _))
      rw [List.getElem?_eq_none_iff] at h1
      omega
  refine ⟨hlen.trans hd.1, ?_⟩
  intro row hrow
  obtain ⟨n, hn⟩ := List.mem_iff_getElem?.mp hrow
  have hmap := h n
  rw [hn] at hmap
  rcases hx : d[n]? with _ | row2
  · rw [hx] at hmap
    simp at hmap
  · rw [hx] at hmap
    simp only [Option.map_some'] at hmap
    have hlen : row.length = row2.length := by simpa using hmap
    rw [hlen]
    exact hd.2 row2 (List.getElem?_mem hx)

lemma Shaped.cellAt_isSome {r c : Nat} {d : List (List α)} {i j : Nat}
    (hd : Shaped r c d) (hi : i < r) (hj : j < c) :
    ∃ x, cellAt d i j = some x := by
  have hi' : i < d.length := hd.1 ▸ hi
  have hrow : d[i]? = some d[i] := List.getElem?_eq_getElem hi'
  have hlen : d[i].length = c := hd.2 _ (List.getElem?_mem hrow)
  have hj' : j < d[i].length := hlen ▸ hj
  exact ⟨d[i][j], by simp [cellAt, hrow, List.getElem?_eq_getElem hj']⟩

lemma Shaped.inShape {r c : Nat} {d : List (List α)} {i j : Nat}
    (hd : Shaped r c d) (hi : i < r) (hj : j < c) : InShape d i j := by
  have hi' : i < d.length := hd.1 ▸ hi
  have hrow : d[i]? = some d[i] := List.getElem?_eq_getElem hi'
  have hlen : d[i].length = c := hd.2 _ (List.getElem?_mem hrow)
  exact ⟨d[i], hrow, hlen ▸ hj⟩

lemma setCell_of_inShape {d : List (List α)} {i j : Nat} (v : α)
    (h : InShape d i j) : ∃ d', setCell d i j v = some d' := by
  obtain ⟨row, hrow, hj⟩ := h
  exact ⟨d.set i (row.set j v), by simp [setCell, hrow, hj]⟩

lemma setCell_shapeEq {d d' : List (List α)} {i j : Nat} {v : α}
    (h : setCell d i j v = some d') : ShapeEq d d' := by
  rcases hrow : d[i]? with _ | row
  · simp only [setCell, hrow] at h
    cases h
  · simp only [setCell, hrow] at h
    by_cases hj : j < row.length
    · rw [if_pos hj] at h
      obtain rfl := Option.some_inj.mp h
      intro p
      by_cases hp : p = i
      · subst hp
        have hlt : p < d.length := List.getElem?_eq_some_iff.mp hrow |>.1
        rw [List.getElem?_set_self (by simpa using hlt), hrow]
        simp
      · rw [List.getElem?_set_ne (fun he => hp he.symm)]
    · rw [if_neg hj] at h
      cases h


lemma setCell_cellAt {d d' : List (List α)} {i j : Nat} {v : α}
    (h : setCell d i j v = some d') :
    ∀ p q, cellAt d' p q = if p = i ∧ q = j then some v else cellAt d p q := by
  rcases hrow : d[i]? with _ | row
  · simp only [setCell, hrow] at h
    cases h
  · simp only [setCell, hrow] at h
    by_cases hj : j < row.length
    · rw [if_pos hj] at h
      obtain rfl := Option.some_inj.mp h
      intro p q
      by_cases hp : p = i
      · subst hp
        have hlt : p < d.length := List.getElem?_eq_some_iff.mp hrow |>.1
        by_cases hq : q = j
        · subst hq
          simp [cellAt, List.getElem?_set_self (by simpa using hlt),
            List.getElem?_set_self (by simpa using hj)]
        · simp [cellAt, List.getElem?_set_self (by simpa using hlt),
            List.getElem?_set_ne (fun he => hq he.symm), hrow, hq]
      · simp [cellAt, List.getElem?_set_ne (fun he => hp he.symm), hp]
    · rw [if_neg hj] at h
      cases h

lemma addCells_shapeEq (f : α → α → α) (a b : List (List α)) :
    ∀ (l : List (Nat × Nat)) (d d' : List (List α)),
    addCells f a b d l = some d' → ShapeEq d d' := by
  intro l
  induction l with
  | nil =>
    intro d d' h
    simp only [addCells] at h
    obtain rfl := Option.some_inj.mp h
    exact shapeEq_refl d
  | cons ij rest ih =>
    intro d d' h
    rcases hx : cellAt a ij.1 ij.2 with _ | x
    · simp only [addCells, hx] at h
      cases h
    · rcases hy : cellAt b ij.1 ij.2 with _ | y
      · simp only [addCells, hx, hy] at h
        cases h
      · rcases hset : setCell d ij.1 ij.2 (f x y) with _ | d2
        · simp only [addCells, hx, hy, hset] at h
          cases h
        · simp only [addCells, hx, hy, hset] at h
          exact shapeEq_trans (setCell_shapeEq hset) (ih d2 d' h)

lemma addCells_sound (f : α → α → α) (a b : List (List α)) :
    ∀ (l : List (Nat × Nat)) (d : List (List α)),
    (∀ ij ∈ l, (∃ x, cellAt a ij.1 ij.2 = some x) ∧
      (∃ y, cellAt b ij.1 ij.2 = some y) ∧ InShape d ij.1 ij.2) →
    ∃ d', addCells f a b d l = some d' ∧ ShapeEq d d' ∧
      ∀ p q, cellAt d' p q =
        if (p, q) ∈ l then (cellAt a p q).bind fun x => (cellAt b p q).map (f x)
        else cellAt d p q := by
  intro l
  induction l with
  | nil =>
    intro d _
    exact ⟨d, rfl, shapeEq_refl d, fun p q => by simp⟩
  | cons ij rest ih =>
    intro d hcond
    obtain ⟨⟨x, hx⟩, ⟨y, hy⟩, hin⟩ := hcond ij (List.mem_cons_self ij rest)
    obtain ⟨d2, hset⟩ := setCell_of_inShape (f x y) hin
    have hrest : ∀ ij' ∈ rest, (∃ x, cellAt a ij'.1 ij'.2 = some x) ∧
        (∃ y, cellAt b ij'.1 ij'.2 = some y) ∧ InShape d2 ij'.1 ij'.2 := by
      intro ij' hmem
      obtain ⟨ha', hb', hin'⟩ := hcond ij' (List.mem_cons_of_mem ij hmem)
      exact ⟨ha', hb', inShape_of_shapeEq (setCell_shapeEq hset) hin'⟩
    obtain ⟨d', hrun, hshape, hpoint⟩ := ih d2 hrest
    refine ⟨d', ?_, shapeEq_trans (setCell_shapeEq hset) hshape, ?_⟩
    · simp only [addCells, hx, hy, hset]
      exact hrun
    · intro p q
      have hcell2 := setCell_cellAt hset p q
      by_cases hmem : (p, q) ∈ ij :: rest
      · rw [if_pos hmem]
        rcases List.mem_cons.mp hmem with heq | hmem'
        · by_cases hmem'' : (p, q) ∈ rest
          · rw [hpoint p q, if_pos hmem'']
          · have hp : p = ij.1 := congrArg Prod.fst heq
            have hq : q = ij.2 := congrArg Prod.snd heq
            subst hp
            subst hq
            rw [hpoint _ _, if_neg hmem'', hcell2, if_pos ⟨rfl, rfl⟩, hx, hy]
            rfl
        · rw [hpoint p q, if_pos hmem']
      · rw [if_neg hmem]
        have hnr : (p, q) ∉ rest := fun hr => hmem (List.mem_cons_of_mem ij hr)
        have hne : ¬(p = ij.1 ∧ q = ij.2) := by
          intro ⟨h1, h2⟩
          exact hmem (by rw [List.mem_cons]; left; rw [h1, h2])
        rw [hpoint p q, if_neg hnr, hcell2, if_neg hne]

lemma mem_rowMajorIdx (r c : Nat) (p : Nat × Nat) :
    p ∈ rowMajorIdx r c ↔ p.1 < r ∧ p.2 < c := by
  rcases p with ⟨i, j⟩
  simp [rowMajorIdx]

lemma add_ok_inv (f : α → α → α) (zero : α) (a b m : Matrix α)
    (h : a.add f zero b = some (.ok m)) : Invariant m := by
  unfold Matrix.add at h
  cases hv : a.verify false b
  · simp [hv] at h
  · simp only [hv, Bool.not_true, Bool.false_eq_true, if_false] at h
    rcases hdone : BuilderMatrix.done zero
        ((Matrix.builder.setRows a.rows).setCols a.cols) with _ | res
    · simp only [hdone] at h
      cases h
    · rcases res with e | result
      · simp only [hdone] at h
        cases h
      · obtain ⟨hres_inv, _, _⟩ := done_ok_inv zero _ result hdone
        simp only [hdone] at h
        rcases haddc : addCells f a.data b.data result.data
            (rowMajorIdx a.rows a.cols) with _ | d'
        · simp only [haddc] at h
          cases h
        · simp only [haddc] at h
          obtain rfl : (⟨result.rows, result.cols, d'⟩ : Matrix α) = m := by
            simpa using h
          have hsh : Shaped result.rows result.cols d' :=
            shaped_of_shapeEq ⟨hres_inv.2.2.1, hres_inv.2.2.2⟩
              (addCells_shapeEq f a.data b.data _ result.data d' haddc)
          exact ⟨hres_inv.1, hres_inv.2.1, hsh.1, hsh.2⟩

lemma cellAt_replicate (zero : α) {r c i j : Nat} (hi : i < r) (hj : j < c) :
    cellAt (List.replicate r (List.replicate c zero)) i j = some zero := by
  simp [cellAt, List.getElem?_replicate, hi, hj]

/-- C1: for shape-invariant matrices `a` and `b`: `add` fails with
`DimensionMismatch` exactly when `a.rows ≠ b.rows` or `a.cols ≠ b.cols`, and
otherwise returns (without panicking) a fresh matrix of `a`'s dimensions
whose every cell `(i, j)` holds `a.data[i][j] + b.data[i][j]`, for any
interpretation `f` of IEEE 64-bit float addition. -/
theorem C1_add_spec (f : α → α → α) (zero : α) (a b : Matrix α)
    (ha : Invariant a) (hb : Invariant b) :
    (¬(a.rows = b.rows ∧ a.cols = b.cols) →
      a.add f zero b = some (.error .DimensionMismatch)) ∧
    (a.rows = b.rows ∧ a.cols = b.cols →
      ∃ m, a.add f zero b = some (.ok m) ∧ m.rows = a.rows ∧ m.cols = a.cols ∧
        Invariant m ∧
        ∀ i j, i < a.rows → j < a.cols → ∃ x y,
          cellAt a.data i j = some x ∧ cellAt b.data i j = some y ∧
          cellAt m.data i j = some (f x y)) := by
  constructor
  · intro hne
    have hv : a.verify false b = false := by
      simp only [Matrix.verify, Bool.and_eq_false_iff, decide_eq_false_iff_not]
      tauto
    simp [Matrix.add, hv]
  · rintro ⟨hr, hc⟩
    have hv : a.verify false b = true := by
      simp [Matrix.verify, hr, hc]
    have hsa : Shaped a.rows a.cols a.data := ⟨ha.2.2.1, ha.2.2.2⟩
    have hsb : Shaped a.rows a.cols b.data := by
      rw [hr, hc]
      exact ⟨hb.2.2.1, hb.2.2.2⟩
    have hsz : Shaped a.rows a.cols
        (List.replicate a.rows (List.replicate a.cols zero)) :=
      ⟨List.length_replicate _ _, fun row hrow => by
        rw [List.eq_of_mem_replicate hrow, List.length_replicate]⟩
    have hdone : ((Matrix.builder.setRows a.rows).setCols a.cols :
        BuilderMatrix α).done zero = some (.ok ⟨a.rows, a.cols,
          List.replicate a.rows (List.replicate a.cols zero)⟩) :=
      done_empty zero _ a.rows a.cols rfl rfl rfl
        (Nat.pos_iff_ne_zero.mp ha.1) (Nat.pos_iff_ne_zero.mp ha.2.1)
    have hcond : ∀ ij ∈ rowMajorIdx a.rows a.cols,
        (∃ x, cellAt a.data ij.1 ij.2 = some x) ∧
        (∃ y, cellAt b.data ij.1 ij.2 = some y) ∧
        InShape (List.replicate a.rows (List.replicate a.cols zero)) ij.1 ij.2 := by
      intro ij hmem
      obtain ⟨hi, hj⟩ := (mem_rowMajorIdx _ _ ij).mp hmem
      exact ⟨hsa.cellAt_isSome hi hj, hsb.cellAt_isSome hi hj, hsz.inShape hi hj⟩
    obtain ⟨d', hrun, hshape, hpoint⟩ := addCells_sound f a.data b.data _ _ hcond
    refine ⟨⟨a.rows, a.cols, d'⟩, ?_, rfl, rfl, ?_, ?_⟩
    · simp [Matrix.add, hv, hdone, hrun]
    · have hsh := shaped_of_shapeEq hsz hshape
      exact ⟨ha.1, ha.2.1, hsh.1, hsh.2⟩
    · intro i j hi hj
      obtain ⟨x, hx⟩ := hsa.cellAt_isSome hi hj
      obtain ⟨y, hy⟩ := hsb.cellAt_isSome hi hj
      refine ⟨x, y, hx, hy, ?_⟩
      have hp := hpoint i j
      rw [if_pos ((mem_rowMajorIdx _ _ (i, j)).mpr ⟨hi, hj⟩), hx, hy] at hp
      simpa using hp

/-- Witness for C1 at the spec's own example: `[[1,2],[3,4]] + [[5,6],[7,8]]`. -/
theorem C1_add_spec_witness :
    ∃ m, Matrix.add (· + ·) (0 : ℤ) ⟨2, 2, [[1, 2], [3, 4]]⟩
        ⟨2, 2, [[5, 6], [7, 8]]⟩ = some (.ok m) ∧
      m.rows = 2 ∧ m.cols = 2 ∧ Invariant m ∧
      ∀ i j, i < 2 → j < 2 → ∃ x y,
        cellAt [[(1 : ℤ), 2], [3, 4]] i j = some x ∧
        cellAt [[(5 : ℤ), 6], [7, 8]] i j = some y ∧
        cellAt m.data i j = some (x + y) :=
  (C1_add_spec (· + ·) 0 ⟨2, 2, [[1, 2], [3, 4]]⟩ ⟨2, 2, [[5, 6], [7, 8]]⟩
    (by decide) (by decide)).2 ⟨rfl, rfl⟩

/-- C2: for any builder reached from `Matrix::builder()` with effective
dimensions `r, c > 0`: with empty data, `done()` yields the `r × c`
zero-filled matrix; with non-empty data, `done()` yields exactly the
supplied data when its shape is `r × c` and `DataMismatch` otherwise. -/
theorem C2_builder_done (zero : α) (ops : List (BuilderOp α)) (r c : Nat)
    (d : List (List α))
    (hr : (build ops).rows = some r) (hc : (build ops).cols = some c)
    (hd : (build ops).data = some d) (hr0 : 0 < r) (hc0 : 0 < c) :
    (d = [] →
      (build ops).done zero =
        some (.ok ⟨r, c, List.replicate r (List.replicate c zero)⟩) ∧
      ∀ i j, i < r → j < c →
        cellAt (List.replicate r (List.replicate c zero)) i j = some zero) ∧
    (d ≠ [] →
      if d.length = r ∧ ∀ row ∈ d, row.length = c then
        (build ops).done zero = some (.ok ⟨r, c, d⟩)
      else
        (build ops).done zero = some (.error .DataMismatch)) := by
  constructor
  · rintro rfl
    refine ⟨done_empty zero _ r c hr hc hd (Nat.pos_iff_ne_zero.mp hr0)
      (Nat.pos_iff_ne_zero.mp hc0), ?_⟩
    intro i j hi hj
    exact cellAt_replicate zero hi hj
  · intro hne
    by_cases hok : d.length = r ∧ ∀ row ∈ d, row.length = c
    · rw [if_pos hok]
      exact done_ok zero _ r c d hr hc hd hne (Nat.pos_iff_ne_zero.mp hr0)
        (Nat.pos_iff_ne_zero.mp hc0) hok.1 hok.2
    · rw [if_neg hok]
      refine done_mismatch zero _ r c d hr hc hd hne
        (Nat.pos_iff_ne_zero.mp hr0) (Nat.pos_iff_ne_zero.mp hc0) ?_
      rcases Decidable.not_and_iff_or_not.mp hok with h' | h'
      · exact Or.inl h'
      · push_neg at h'
        exact Or.inr h'

/-- Witness for C2: a `2 × 2` builder with matching data succeeds with the
data unchanged. -/
theorem C2_builder_done_witness :
    (build [BuilderOp.opRows 2, BuilderOp.opCols 2,
      BuilderOp.opData [[1, 2], [3, 4]]]).done (0 : ℤ) =
      some (.ok ⟨2, 2, [[1, 2], [3, 4]]⟩) := by
  have h := (C2_builder_done (0 : ℤ)
    [BuilderOp.opRows 2, BuilderOp.opCols 2, BuilderOp.opData [[1, 2], [3, 4]]]
    2 2 [[1, 2], [3, 4]] rfl rfl rfl (by decide) (by decide)).2 (by decide)
  rw [if_pos (by decide)] at h
  exact h

/-- C3: a builder reached from `Matrix::builder()` whose effective rows
or cols is `0` always fails with `InvalidMatrixSize`, whatever its data. -/
theorem C3_builder_zero_dims (zero : α) (ops : List (BuilderOp α))
    (h : (build ops).rows = some 0 ∨ (build ops).cols = some 0) :
    (build ops).done zero = some (.error .InvalidMatrixSize) :=
  done_invalid zero (build ops) h

/-- Witness for C3: `rows(0)` with data supplied still fails with
`InvalidMatrixSize`. -/
theorem C3_builder_zero_dims_witness :
    (build [BuilderOp.opRows 0, BuilderOp.opData [[5]]]).done (0 : ℤ) =
      some (.error .InvalidMatrixSize) :=
  C3_builder_zero_dims 0 [BuilderOp.opRows 0, BuilderOp.opData [[5]]]
    (by decide)

/-- C4: `verify(false, other)` is true iff both dimensions agree, and is
symmetric; `verify(true, other)` is true iff `self.rows == other.cols`, and
is not symmetric in general; `verify` is a pure total predicate. -/
theorem C4_verify_spec (a b : Matrix α) :
    (a.verify false b = true ↔ a.rows = b.rows ∧ a.cols = b.cols) ∧
    a.verify false b = b.verify false a ∧
    (a.verify true b = true ↔ a.rows = b.cols) ∧
    ∃ u v : Matrix α, u.verify true v ≠ v.verify true u := by
  refine ⟨by simp [Matrix.verify], ?_, by simp [Matrix.verify], ?_⟩
  · have h1 : decide (a.rows = b.rows) = decide (b.rows = a.rows) :=
      decide_eq_decide.mpr eq_comm
    have h2 : decide (a.cols = b.cols) = decide (b.cols = a.cols) :=
      decide_eq_decide.mpr eq_comm
    simp only [Matrix.verify, h1, h2, Bool.and_comm]
  · exact ⟨⟨1, 2, []⟩, ⟨2, 3, []⟩, by simp [Matrix.verify]⟩

/-- Witness for C4 at concrete matrices (spec's `2×3` vs `3×2` example). -/
theorem C4_verify_spec_witness :
    ((⟨2, 3, [[1, 2, 3], [4, 5, 6]]⟩ : Matrix ℤ).verify false
        ⟨3, 2, [[1, 2], [3, 4], [5, 6]]⟩ = true ↔ (2 = 3 ∧ 3 = 2)) ∧
    (⟨2, 3, [[1, 2, 3], [4, 5, 6]]⟩ : Matrix ℤ).verify false
        ⟨3, 2, [[1, 2], [3, 4], [5, 6]]⟩ =
      (⟨3, 2, [[1, 2], [3, 4], [5, 6]]⟩ : Matrix ℤ).verify false
        ⟨2, 3, [[1, 2, 3], [4, 5, 6]]⟩ ∧
    ((⟨2, 3, [[1, 2, 3], [4, 5, 6]]⟩ : Matrix ℤ).verify true
        ⟨3, 2, [[1, 2], [3, 4], [5, 6]]⟩ = true ↔ 2 = 2) ∧
    ∃ u v : Matrix ℤ, u.verify true v ≠ v.verify true u :=
  C4_verify_spec ⟨2, 3, [[1, 2, 3], [4, 5, 6]]⟩ ⟨3, 2, [[1, 2], [3, 4], [5, 6]]⟩

/-- C5 counterexample: `Matrix::new()` is a public construction path,
yet its result (`rows = 1`, `cols = 1`, empty `data`) violates the shape
invariant, refuting the claim that every such matrix satisfies it. -/
theorem C5_new_invariant_cex : ¬ Invariant (Matrix.new : Matrix ℤ) := by
  decide

/-- C5 (amended): matrices produced by the builder's successful `done()`
and by successful `add` satisfy the shape invariant, but the placeholder
`Matrix::new()` does not. -/
theorem C5_construction_invariant (f : α → α → α) (zero : α) :
    (∀ (b : BuilderMatrix α) (m : Matrix α),
      b.done zero = some (.ok m) → Invariant m) ∧
    (∀ a b m : Matrix α, a.add f zero b = some (.ok m) → Invariant m) ∧
    ¬ Invariant (Matrix.new : Matrix α) := by
  refine ⟨fun b m h => (done_ok_inv zero b m h).1,
    fun a b m h => add_ok_inv f zero a b m h, ?_⟩
  intro hinv
  have h3 := hinv.2.2.1
  simp [Matrix.new] at h3

/-- Witness for C5 (amended): a builder-produced `2 × 2` zero matrix
satisfies the invariant. -/
theorem C5_construction_invariant_witness :
    Invariant (⟨2, 2, [[0, 0], [0, 0]]⟩ : Matrix ℤ) :=
  (C5_construction_invariant (· + ·) (0 : ℤ)).1
    (build [BuilderOp.opRows 2, BuilderOp.opCols 2]) _ (by decide)

/-- C9: every builder reachable from `Matrix::builder()` by chained
`rows`/`cols`/`data` calls has all three fields `Some`, so `done()` never
hits a failing `unwrap`: it always returns a value (`Ok` or an error). -/
theorem C9_builder_total (zero : α) (ops : List (BuilderOp α)) :
    ((build ops).rows.isSome ∧ (build ops).cols.isSome ∧
      (build ops).data.isSome) ∧
    ∃ res : Except MatrixError (Matrix α), (build ops).done zero = some res := by
  obtain ⟨h1, h2, h3⟩ := allSome_build ops
  exact ⟨⟨h1, h2, h3⟩, done_isSome zero _ ⟨h1, h2, h3⟩⟩

/-- C10: on `Matrix::new()`'s output, `get(0, 0)` passes the bounds
check (`rows = cols = 1`) but the unguarded `data[0][0]` is out of bounds of
the empty `data`, so `get` panics (`none` in the panic model) instead of
returning a value. -/
theorem C10_new_get_panics :
    (0 < (Matrix.new : Matrix α).rows ∧ 0 < (Matrix.new : Matrix α).cols) ∧
    cellAt (Matrix.new : Matrix α).data 0 0 = none ∧
    (Matrix.new : Matrix α).get 0 0 = none :=
  ⟨⟨Nat.one_pos, Nat.one_pos⟩, rfl, rfl⟩

lemma findIn_none (beq : α → α → Bool) (value : α) :
    ∀ (j0 : Nat) (row : List α),
    findIn beq value j0 row = none ↔ ∀ x ∈ row, beq x value = false := by
  intro j0 row
  induction row generalizing j0 with
  | nil => simp [findIn]
  | cons v rest ih =>
    cases hv : beq v value
    · simp [findIn, hv, ih]
    · simp [findIn, hv]

lemma findIn_some (beq : α → α → Bool) (value : α) :
    ∀ (j0 j : Nat) (row : List α), findIn beq value j0 row = some j →
    ∃ k, j = j0 + k ∧ ∃ w, row[k]? = some w ∧ beq w value = true ∧
      ∀ q, q < k → ∀ w', row[q]? = some w' → beq w' value = false := by
  intro j0 j row
  induction row generalizing j0 j with
  | nil => intro h; simp [findIn] at h
  | cons v rest ih =>
    intro h
    cases hv : beq v value
    · simp only [findIn, hv, if_false, Bool.false_eq_true] at h
      obtain ⟨k, hk, w, hw, hbw, hprev⟩ := ih (j0 + 1) j h
      refine ⟨k + 1, by omega, w, by simpa using hw, hbw, ?_⟩
      intro q hq w' hw'
      cases q with
      | zero =>
        obtain rfl : v = w' := by simpa using hw'
        exact hv
      | succ q' => exact hprev q' (by omega) w' (by simpa using hw')
    · simp only [findIn, hv, if_true] at h
      obtain rfl : j0 = j := by simpa using h
      exact ⟨0, by omega, v, by simp, hv, fun q hq => absurd hq (Nat.not_lt_zero q)⟩

lemma findRowsAux_none (beq : α → α → Bool) (value : α) :
    ∀ (i0 : Nat) (rows : List (List α)),
    findRowsAux beq value i0 rows = none ↔
      ∀ row ∈ rows, ∀ x ∈ row, beq x value = false := by
  intro i0 rows
  induction rows generalizing i0 with
  | nil => simp [findRowsAux]
  | cons row rest ih =>
    rcases hf : findIn beq value 0 row with _ | j
    · have hrow := (findIn_none beq value 0 row).mp hf
      simp [findRowsAux, hf, ih, hrow]
      exact fun _ => hrow
    · obtain ⟨k, _, w, hw, hbw, _⟩ := findIn_some beq value 0 j row hf
      simp only [findRowsAux, hf]
      constructor
      · intro h
        cases h
      · intro hP
        have hfalse := hP row (List.mem_cons_self row rest) w (List.getElem?_mem hw)
        rw [hfalse] at hbw
        cases hbw

lemma findRowsAux_some (beq : α → α → Bool) (value : α) :
    ∀ (i0 i j : Nat) (rows : List (List α)),
    findRowsAux beq value i0 rows = some (i, j) →
    ∃ k row, i = i0 + k ∧ rows[k]? = some row ∧
      findIn beq value 0 row = some j ∧
      ∀ p, p < k → ∀ row', rows[p]? = some row' →
        ∀ x ∈ row', beq x value = false := by
  intro i0 i j rows
  induction rows generalizing i0 i j with
  | nil => intro h; simp [findRowsAux] at h
  | cons row rest ih =>
    intro h
    rcases hf : findIn beq value 0 row with _ | j'
    · simp only [findRowsAux, hf] at h
      obtain ⟨k, row', hk, hrow', hfr, hprev⟩ := ih (i0 + 1) i j h
      refine ⟨k + 1, row', by omega, by simpa using hrow', hfr, ?_⟩
      intro p hp row'' hrow''
      cases p with
      | zero =>
        obtain rfl : row = row'' := by simpa using hrow''
        exact (findIn_none beq value 0 row).mp hf
      | succ p' => exact hprev p' (by omega) row'' (by simpa using hrow'')
    · simp only [findRowsAux, hf] at h
      obtain ⟨rfl, rfl⟩ : i0 = i ∧ j' = j := by simpa using h
      exact ⟨0, row, by omega, by simp, hf,
        fun p hp => absurd hp (Nat.not_lt_zero p)⟩

/-- C6: for a shape-invariant matrix, `get(r, c)` returns exactly the
stored cell for in-range indices, `None` for any out-of-range index, and
never panics. -/
theorem C6_get_spec (m : Matrix α) (hm : Invariant m) (r c : Nat) :
    (r < m.rows → c < m.cols →
      ∃ v, cellAt m.data r c = some v ∧ m.get r c = some (some v)) ∧
    (¬(r < m.rows ∧ c < m.cols) → m.get r c = some none) ∧
    m.get r c ≠ none := by
  have hs : Shaped m.rows m.cols m.data := ⟨hm.2.2.1, hm.2.2.2⟩
  have hout : ¬(r < m.rows ∧ c < m.cols) → m.get r c = some none := by
    intro hnot
    unfold Matrix.get
    rw [if_neg (by simp only [Bool.and_eq_true, decide_eq_true_eq]; exact hnot)]
  have hin : r < m.rows → c < m.cols →
      ∃ v, cellAt m.data r c = some v ∧ m.get r c = some (some v) := by
    intro hr hc
    obtain ⟨v, hv⟩ := hs.cellAt_isSome hr hc
    refine ⟨v, hv, ?_⟩
    unfold Matrix.get
    rw [if_pos (by simp only [Bool.and_eq_true, decide_eq_true_eq]; exact ⟨hr, hc⟩), hv]
  refine ⟨hin, hout, ?_⟩
  by_cases h : r < m.rows ∧ c < m.cols
  · obtain ⟨v, _, hget⟩ := hin h.1 h.2
    rw [hget]
    exact Option.some_ne_none _
  · rw [hout h]
    exact Option.some_ne_none _

/-- Witness for C6: in-range lookup on a concrete `1 × 1` matrix. -/
theorem C6_get_spec_witness :
    ∃ v, cellAt [[(5 : ℤ)]] 0 0 = some v ∧
      (⟨1, 1, [[5]]⟩ : Matrix ℤ).get 0 0 = some (some v) :=
  (C6_get_spec ⟨1, 1, [[5]]⟩ (by decide) 0 0).1 (by decide) (by decide)

/-- C7: `find(v)` returns the first row-major coordinate whose cell
compares equal to `v` (every strictly earlier cell compares unequal), `None`
when no cell compares equal, and in particular `None` for any value that
compares unequal to everything, as IEEE `NaN` does. -/
theorem C7_find_spec (beq : α → α → Bool) (m : Matrix α) (value : α) :
    (∀ i j, m.find beq value = some (i, j) →
      ∃ w, cellAt m.data i j = some w ∧ beq w value = true ∧
        ∀ p q, (p < i ∨ (p = i ∧ q < j)) → ∀ w', cellAt m.data p q = some w' →
          beq w' value = false) ∧
    (m.find beq value = none →
      ∀ p q w, cellAt m.data p q = some w → beq w value = false) ∧
    ((∀ x, beq x value = false) → m.find beq value = none) := by
  refine ⟨?_, ?_, ?_⟩
  · intro i j h
    obtain ⟨k, row, hk, hrow, hfind, hprev⟩ :=
      findRowsAux_some beq value 0 i j m.data h
    obtain rfl : i = k := by omega
    obtain ⟨k', hk', w, hw, hbw, hprev'⟩ := findIn_some beq value 0 j row hfind
    obtain rfl : j = k' := by omega
    refine ⟨w, by simp [cellAt, hrow, hw], hbw, ?_⟩
    intro p q hpq w' hw'
    rcases hpq with hp | ⟨rfl, hq⟩
    · rcases hrp : m.data[p]? with _ | row''
      · simp [cellAt, hrp] at hw'
      · simp only [cellAt, hrp, Option.some_bind] at hw'
        exact hprev p hp row'' hrp w' (List.getElem?_mem hw')
    · simp only [cellAt, hrow, Option.some_bind] at hw'
      exact hprev' q hq w' hw'
  · intro h p q w hw
    have hall := (findRowsAux_none beq value 0 m.data).mp h
    rcases hrp : m.data[p]? with _ | row
    · simp [cellAt, hrp] at hw
    · simp only [cellAt, hrp, Option.some_bind] at hw
      exact hall row (List.getElem?_mem hrp) w (List.getElem?_mem hw)
  · intro hfalse
    exact (findRowsAux_none beq value 0 m.data).mpr fun row _ x _ => hfalse x

/-- Witness for C7: a NaN-like value (unequal to every cell) is not found. -/
theorem C7_find_spec_witness :
    Matrix.find (fun _ _ => false) (⟨2, 2, [[1, 2], [3, 4]]⟩ : Matrix ℤ) 2 =
      none :=
  (C7_find_spec (fun _ _ => false) ⟨2, 2, [[1, 2], [3, 4]]⟩ 2).2.2 fun _ => rfl

/-- C8 counterexample: `Matrix::new()` has no data rows, yet it renders
as the empty string, not as `||`: the `||` branch fires only when
`rows == 0 || cols == 0`, and `Matrix::new()` reports `rows = cols = 1`. -/
theorem C8_render_cex :
    Matrix.render (fun _ : ℤ => "") Matrix.new ≠ "||" := by decide

/-- C8 (amended): the matrix `[[1,2],[3,4]]` renders as `"|1 2|\n|3 4|"`; a matrix
with zero rows or zero columns renders as `||`; but a matrix with no data
rows and nonzero declared dimensions renders as the empty string. -/
theorem C8_render_spec (shw : α → String) :
    (∀ a b c d : α, shw a = "1" → shw b = "2" → shw c = "3" → shw d = "4" →
      Matrix.render shw ⟨2, 2, [[a, b], [c, d]]⟩ = "|1 2|\n|3 4|") ∧
    (∀ m : Matrix α, m.rows = 0 ∨ m.cols = 0 → m.render shw = "||") ∧
    (∀ m : Matrix α, m.data = [] → ¬(m.rows = 0 ∨ m.cols = 0) →
      m.render shw = "") := by
  refine ⟨?_, ?_, ?_⟩
  · intro a b c d h1 h2 h3 h4
    simp only [Matrix.render, renderRow, renderCell, List.enum, List.enumFrom,
      List.map, String.join, List.foldl, h1, h2, h3, h4]
    simp
  · intro m hm
    unfold Matrix.render
    rw [if_pos hm]
  · intro m hd hm
    unfold Matrix.render
    rw [if_neg hm, hd]
    rfl

/-- Witness for C8 (amended): the spec example rendered with the decimal
representation of the integer scalars. -/
theorem C8_render_spec_witness :
    Matrix.render (fun z : ℤ => toString z) ⟨2, 2, [[1, 2], [3, 4]]⟩ =
      "|1 2|\n|3 4|" :=
  (C8_render_spec (fun z : ℤ => toString z)).1 1 2 3 4
    (by decide) (by decide) (by decide) (by decide)

end MatrixOps

